import Mathlib

/-!
Verification of the `astro-dynamic-component` Vite plugin
(`src/vite-plugin.mjs`) against its natural-language specification.

The JavaScript source is shallowly embedded: strings are Lean `String`s
(manipulated through their character lists so that everything evaluates
inside the kernel), the filesystem glob engine (`fast-glob`), the digest
function (`crypto` md5) and the tsconfig reader (`get-tsconfig`) are
external collaborators and enter as explicit parameters, and the
`node:path` posix functions used by the plugin are modelled concretely
below.  Stateful parts (the process-wide code cache, `console.warn`,
whether the synthesizer ran, which glob was handed to the matcher) are
made explicit as fields of a result record.
-/

/-! ## Character and list helpers -/

/-- The character `{` (written by code point to keep it out of source text). -/
def charLbrace : Char := Char.ofNat 123

/-- The character `}` (written by code point). -/
def charRbrace : Char := Char.ofNat 125

/-- `s` starts with `p` (model of JS `String.prototype.startsWith`). -/
def strStartsWith (s p : String) : Bool := p.toList.isPrefixOf s.toList

/-- `s` ends with `p` (model of JS `String.prototype.endsWith`). -/
def strEndsWith (s p : String) : Bool := p.toList.isSuffixOf s.toList

/-- Index of the first occurrence of `ch` (model of JS `indexOf`, with
`none` playing the role of `-1`). -/
def jsIndexOf (ch : Char) : List Char → Option Nat
  | [] => none
  | c :: cs => if c = ch then some 0 else (jsIndexOf ch cs).map (· + 1)

/-- Index of the last occurrence of `ch` (model of JS `lastIndexOf`). -/
def lastIdxOf (ch : Char) : List Char → Option Nat
  | [] => none
  | c :: cs =>
    match lastIdxOf ch cs with
    | some i => some (i + 1)
    | none => if c = ch then some 0 else none

/-! ## `normalizePath` (vite-plugin.mjs, lines 23-25): `p.replace(/\\/g, '/')` -/

/-- Normalize path separators to POSIX style: every backslash becomes `/`. -/
def normalizePath (p : String) : String :=
  (p.toList.map (fun c => if c = '\\' then '/' else c)).asString

/-! ## `getGlobBase` (vite-plugin.mjs, lines 32-49) -/

/-- The glob metacharacters scanned by `getGlobBase`. -/
def globChars : List Char := ['*', '?', '[', charLbrace]

/-- Faithful model of `getGlobBase`: the minimum over the four
metacharacters of their first index (default: the pattern length), then
the prefix before that index, cut back to just before its last `/`
(`.` when the prefix has no `/`). -/
def getGlobBase (pattern : String) : String :=
  let cs := pattern.toList
  let firstGlobIndex := globChars.foldl (fun acc ch =>
    match jsIndexOf ch cs with
    | some i => if i < acc then i else acc
    | none => acc) cs.length
  let base := cs.take firstGlobIndex
  match lastIdxOf '/' base with
  | some i => (base.take i).asString
  | none => "."

/-! ## `parseDcImport` (vite-plugin.mjs, lines 66-98)

The path part is found with the regex `^(.*?):(\.{0,2}\/.*|[a-zA-Z@].*)$`.
JavaScript `.` (no `s` flag) matches any character except the line
terminators LF, CR, U+2028, U+2029, and `$` (no `m` flag) only matches at
the very end of the input, so the regex can only match when the whole
remainder is free of line terminators; the lazy `(.*?)` then picks the
first `:` whose suffix starts like a path. -/

/-- JS line terminators, which `.` never matches. -/
def isLineTerm (c : Char) : Bool :=
  c == '\n' || c == '\r' || c.toNat == 8232 || c.toNat == 8233

/-- No character of the list is a line terminator. -/
def noLT (cs : List Char) : Bool := cs.all (fun c => !isLineTerm c)

/-- Does the remainder after a candidate `:` match the head of the group
`(\.{0,2}\/.*|[a-zA-Z@].*)`, i.e. start with `/`, `./`, `../`, an ASCII
letter, or `@`? -/
def startsPath : List Char → Bool
  | '/' :: _ => true
  | '.' :: '/' :: _ => true
  | '.' :: '.' :: '/' :: _ => true
  | c :: _ => c.isAlpha || c == '@'
  | [] => false

/-- The split performed by the lazy regex: the first `:` whose suffix
satisfies `startsPath`, returning (directive segment, pattern). -/
def findBoundary : List Char → Option (List Char × List Char)
  | [] => none
  | c :: rest =>
    if c == ':' && startsPath rest then some ([], rest)
    else
      match findBoundary rest with
      | some (pre, pat) => some (c :: pre, pat)
      | none => none

/-- `parts[0]` of JS `clientPart.split('=')`: the text before the first `=`. -/
def eqName (cs : List Char) : List Char := cs.takeWhile (fun c => c != '=')

/-- `parts[1]` of JS `clientPart.split('=')`: the text strictly between the
first and the second `=` (or to the end when there is no second `=`). -/
def eqValue (cs : List Char) : List Char :=
  ((cs.dropWhile (fun c => c != '=')).drop 1).takeWhile (fun c => c != '=')

/-- Result of parsing a `dc:` import. -/
structure ParsedDc where
  clientDirective : Option String
  pattern : String
deriving DecidableEq, Repr

/-- Faithful model of `parseDcImport`: strip the 3-character `dc:` prefix,
run the path regex (which can only match on line-terminator-free input),
then classify the directive segment (empty, `key=value`, bare keyword);
with no match the whole remainder is the pattern and the configured
default keyword is used. -/
def parseDcImport (source : String) (defaultClientDirective : String := "load") : ParsedDc :=
  match (if noLT (source.toList.drop 3) then findBoundary (source.toList.drop 3) else none) with
  | some (clientPart, pattern) =>
    if clientPart = [] then ⟨none, pattern.asString⟩
    else if clientPart.contains '=' then
      ⟨some ("client:" ++ (eqName clientPart).asString ++ "=\"" ++ (eqValue clientPart).asString ++ "\""),
        pattern.asString⟩
    else ⟨some ("client:" ++ clientPart.asString), pattern.asString⟩
  | none => ⟨some ("client:" ++ defaultClientDirective), (source.toList.drop 3).asString⟩

/-! ## Small string rewrites used by the synthesizer -/

/-- JS `relativePath.replace(/\.[^.]+$/, '')`: drop a final `.ext` segment
(the regex needs at least one non-dot character after the last dot). -/
def stripExt (s : String) : String :=
  let cs := s.toList
  match lastIdxOf '.' cs with
  | some i => if i + 1 < cs.length then (cs.take i).asString else s
  | none => s

/-- JS `pattern.replace(/\/?\*$/, '')`: strip a trailing `*`, together with
one `/` right before it when present. -/
def stripSlashStar (s : String) : String :=
  if strEndsWith s "/*" then s.toList.dropLast.dropLast.asString
  else if strEndsWith s "*" then s.toList.dropLast.asString
  else s

/-- JS `pattern.replace(/\/?\*.*$/, '')`: cut at the first `*` whose whole
suffix is line-terminator free (`.*$` cannot cross a line terminator),
also removing one `/` right before that `*`. -/
def stripGlobSuffixL : List Char → List Char
  | [] => []
  | c :: rest =>
    if c == '*' && noLT rest then []
    else if c == '/' then
      match rest with
      | r :: rs => if r == '*' && noLT rs then [] else c :: stripGlobSuffixL rest
      | [] => [c]
    else c :: stripGlobSuffixL rest

/-- String wrapper for `stripGlobSuffixL`. -/
def stripGlobSuffix (s : String) : String := (stripGlobSuffixL s.toList).asString

/-! ## Model of the `node:path` posix functions used by the plugin -/

/-- Split a character list on `/`. -/
def splitSlash : List Char → List (List Char)
  | [] => [[]]
  | c :: cs =>
    if c = '/' then [] :: splitSlash cs
    else
      match splitSlash cs with
      | s :: ss => (c :: s) :: ss
      | [] => [[c]]

/-- Keep a path segment: drop empty segments and `.`. -/
def keepSeg (s : List Char) : Bool := !s.isEmpty && s ≠ ['.']

/-- Process `..` segments against an accumulator (reversed prefix).  In an
absolute path `..` at the root is dropped; in a relative path it is kept. -/
def resolveDotsAux (isAbs : Bool) : List (List Char) → List (List Char) → List (List Char)
  | acc, [] => acc.reverse
  | acc, seg :: rest =>
    if seg = ['.', '.'] then
      match acc with
      | top :: accRest =>
        if top = ['.', '.'] then resolveDotsAux isAbs (seg :: acc) rest
        else resolveDotsAux isAbs accRest rest
      | [] => if isAbs then resolveDotsAux isAbs [] rest else resolveDotsAux isAbs [seg] rest
    else resolveDotsAux isAbs (seg :: acc) rest

/-- posix `path.normalize`: collapse `//`, resolve `.` and `..`. -/
def pathNormalize (p : String) : String :=
  let isAbs := strStartsWith p "/"
  let segs := (splitSlash p.toList).filter keepSeg
  let out := resolveDotsAux isAbs [] segs
  if isAbs then ('/' :: List.intercalate ['/'] out).asString
  else if out.isEmpty then "." else (List.intercalate ['/'] out).asString

/-- posix `path.join` of two parts. -/
def pathJoin (a b : String) : String := pathNormalize (a ++ "/" ++ b)

/-- posix `path.resolve` of a base (taken to be absolute, as in the plugin)
and one further part. -/
def pathResolve2 (base p : String) : String :=
  if strStartsWith p "/" then pathNormalize p else pathNormalize (base ++ "/" ++ p)

/-- posix `path.resolve` with three arguments. -/
def pathResolve3 (a b c : String) : String := pathResolve2 (pathResolve2 a b) c

/-- posix `path.resolve` with four arguments. -/
def pathResolve4 (a b c d : String) : String := pathResolve2 (pathResolve3 a b c) d

/-- posix `path.dirname`. -/
def dirname (p : String) : String :=
  let cs := p.toList
  let hasRoot := cs.head? == some '/'
  let t := (cs.reverse.dropWhile (fun c => c == '/')).reverse
  match lastIdxOf '/' t with
  | some 0 => "/"
  | some 1 => if hasRoot then "//" else (t.take 1).asString
  | some i => (t.take i).asString
  | none => if hasRoot then "/" else "."

/-- posix `path.basename`. -/
def basename (p : String) : String :=
  let t := (p.toList.reverse.dropWhile (fun c => c == '/')).reverse
  match lastIdxOf '/' t with
  | some i => (t.drop (i + 1)).asString
  | none => t.asString

/-- Normalized segment list of a path (used by `pathRelative`). -/
def segsOf (p : String) : List String :=
  (resolveDotsAux (strStartsWith p "/") [] ((splitSlash p.toList).filter keepSeg)).map List.asString

/-- Drop the common prefix of two segment lists. -/
def dropCommon : List String → List String → List String × List String
  | a :: as, b :: bs => if a = b then dropCommon as bs else (a :: as, b :: bs)
  | as, bs => (as, bs)

/-- posix `path.relative` for absolute paths: walk up out of the remaining
`from` segments, then down the remaining `to` segments. -/
def pathRelative (fromP toP : String) : String :=
  let pair := dropCommon (segsOf fromP) (segsOf toP)
  String.intercalate "/" (List.replicate pair.1.length ".." ++ pair.2)

/-! ## `resolveAlias` (vite-plugin.mjs, lines 166-213)

The Vite alias table reaches the plugin as an ordered list of
`(find, replacement)` entries (the object form is converted to exactly
that by `Object.entries`); a RegExp `find` is represented here by its
`source` string, and an absent/falsy `find` by `""` (the code skips such
entries with `if (!find) continue`).  The tsconfig read by `get-tsconfig`
is an external collaborator, modelled as its `paths` table plus the
already-resolved `baseUrl` directory (`path.resolve(dirname(tsconfig.path),
baseUrl)`). -/

/-- The tsconfig data consumed by `resolveAlias`. -/
structure Tsconfig where
  baseDirResolved : String
  paths : List (String × List String)
deriving DecidableEq

/-- The Vite-tier loop: the first entry with a truthy `find` that is a
literal prefix of the alias path. -/
def viteFirstMatch (aliasPath : String) : List (String × String) → Option (String × String)
  | [] => none
  | (fnd, repl) :: rest =>
    if fnd = "" then viteFirstMatch aliasPath rest
    else if strStartsWith aliasPath fnd then some (fnd, repl)
    else viteFirstMatch aliasPath rest

/-- The tsconfig-tier loop: first pattern whose `/*`-stripped form is a
prefix of the alias path and whose first mapping is truthy; the suffix is
appended to the stripped mapping and resolved against the base directory. -/
def tsPathsLookup (aliasPath baseDirResolved : String) : List (String × List String) → Option String
  | [] => none
  | (pat, mappings) :: rest =>
    let pre := stripSlashStar pat
    if strStartsWith aliasPath pre then
      match mappings with
      | [] => tsPathsLookup aliasPath baseDirResolved rest
      | m :: _ =>
        if m = "" then tsPathsLookup aliasPath baseDirResolved rest
        else some (pathResolve2 baseDirResolved
          (stripSlashStar m ++ (aliasPath.toList.drop pre.length).asString))
    else tsPathsLookup aliasPath baseDirResolved rest

/-- Faithful model of `resolveAlias`: Vite tier first (replacement
substitutes the matched prefix, as `String.replace` hits the prefix
occurrence first), tsconfig tier only when no Vite entry matched,
`none` when neither tier matches. -/
def resolveAlias (aliasPath : String) (viteAliases : List (String × String))
    (ts : Option Tsconfig) : Option String :=
  match viteFirstMatch aliasPath viteAliases with
  | some e => some (e.2 ++ (aliasPath.toList.drop e.1.length).asString)
  | none =>
    match ts with
    | none => none
    | some t => tsPathsLookup aliasPath t.baseDirResolved t.paths

/-! ## Component descriptors and the virtual module synthesizer
(vite-plugin.mjs, lines 110-157 and 317-324) -/

/-- One entry of the component list built in `resolveId`. -/
structure Comp where
  importName : String
  compName : String
  filePath : String
  isAstro : Bool
deriving DecidableEq, Repr

/-- The `files.map(...)` body of `resolveId` (lines 317-324): relative path
from the glob base, display name with the extension stripped, binding name
from the digest of the relative path, `.astro` detection. -/
def mkComponent (md5f : String → String) (baseDir filePath : String) : Comp :=
  let relativePath := normalizePath (pathRelative baseDir filePath)
  { importName := "Com_" ++ md5f relativePath
    compName := stripExt relativePath
    filePath := filePath
    isAstro := strEndsWith filePath ".astro" }

/-- The directive attribute emitted into a conditional-render branch:
empty for `.astro` components and for a null/falsy directive, otherwise a
space followed by the directive text. -/
def clientAttrOf (clientDirective : Option String) (c : Comp) : String :=
  match clientDirective with
  | none => ""
  | some s => if c.isAstro || s == "" then "" else " " ++ s

/-- One generated import statement. -/
def importLineFor (pattern baseDir : String) (isPathAlias : Bool) (srcDirAbsolute : String)
    (c : Comp) : String :=
  let importPath :=
    if isPathAlias then
      stripGlobSuffix pattern ++ "/" ++ normalizePath (pathRelative baseDir c.filePath)
    else
      "../" ++ normalizePath (pathRelative srcDirAbsolute c.filePath)
  "import " ++ c.importName ++ " from \"" ++ importPath ++ "\";"

/-- One conditional-render branch: guard on `Astro.props.comp` against the
component's display name, then the component with its directive attribute. -/
def branchText (clientDirective : Option String) (c : Comp) : String :=
  "\x7b Astro.props.comp === \"" ++ c.compName ++ "\" && <" ++ c.importName ++
    clientAttrOf clientDirective c ++ " \x7b...rest\x7d /> \x7d"

/-- Faithful model of `generateVirtualAstroComponent`. -/
def generateVirtualAstroComponent (pattern baseDir : String) (clientDirective : Option String)
    (components : List Comp) (isPathAlias : Bool) (srcDirAbsolute : String) : String :=
  let imports := String.intercalate "\n"
    (components.map (importLineFor pattern baseDir isPathAlias srcDirAbsolute))
  let compTypes := String.intercalate " | " (components.map (fun c => "\"" ++ c.compName ++ "\""))
  let conditionalRenders := String.intercalate "\n" (components.map (branchText clientDirective))
  "---\n" ++ imports ++ "\n\ninterface Props \x7b\n    comp: " ++ compTypes ++
    ";\n    [key: string]: any;\n\x7d\n\nconst \x7b comp, ...rest \x7d = Astro.props;\n---\n\n" ++
    conditionalRenders ++ "\n"

/-! ## Sorting (JS `Array.prototype.sort` on strings) -/

/-- Lexicographic comparison of character lists by code point (the order JS
`sort()` uses on strings). -/
def lexLe : List Char → List Char → Bool
  | [], _ => true
  | _ :: _, [] => false
  | a :: as, b :: bs => if a.toNat = b.toNat then lexLe as bs else Nat.blt a.toNat b.toNat

/-- String order used for the sort before hashing. -/
def strLe (a b : String) : Prop := lexLe a.toList b.toList = true

instance : DecidableRel strLe := fun a b => by unfold strLe; infer_instance

/-- Model of `files.sort()`: sorting is insertion sort here, which agrees
with any sort for a total order since equal keys are identical strings. -/
def sortStrings (l : List String) : List String := l.insertionSort strLe

/-! ## The resolution orchestrator (vite-plugin.mjs, lines 252-340) -/

/-- Warning emitted for a prefixed specifier with no importer. -/
def warnNoImporter (source : String) : String :=
  "[dynamic-component] Cannot resolve \"" ++ source ++ "\" without importer"

/-- Warning emitted when the alias tier resolves nothing. -/
def warnAliasFail (patternBase : String) : String :=
  "[dynamic-component] Cannot resolve path alias \"" ++ patternBase ++ "\"."

/-- Warning emitted when the glob matches no files. -/
def warnNoMatch (pattern : String) : String :=
  "[dynamic-component] No files matched for pattern \"" ++ pattern ++ "\""

/-- Warning emitted by `load` on a cache miss. -/
def warnCacheMiss (id : String) : String :=
  "[dynamic-component] Code not found in cache for " ++ id

/-- `codeCache.has`. -/
def cacheHas (cache : List (String × String)) (k : String) : Bool :=
  cache.any (fun e => e.1 == k)

/-- `codeCache.get`. -/
def cacheGet (cache : List (String × String)) (k : String) : Option String :=
  (cache.find? (fun e => e.1 == k)).map (·.2)

/-- Everything `resolveId` computes before the glob matcher runs:
the parsed directive and pattern, the alias/relative classification, the
resolved glob pattern handed to the matcher, and the glob base directory.
`none` means the alias tier failed. -/
structure PreResolved where
  clientDirective : Option String
  pattern : String
  isPathAlias : Bool
  resolvedPattern : String
  baseDir : String
deriving DecidableEq, Repr

/-- Lines 263-292 of `resolveId`: parse, classify as alias or relative,
and compute the resolved glob pattern and base directory.  The alias tier
fails (`if (!resolvedBase)`, a JS falsy check) both when `resolveAlias`
returns null and when it returns the empty string — the latter is
reachable, e.g. alias table `@ -> ""` with pattern `@/*.vue`. -/
def preResolve (viteAliases : List (String × String)) (ts : Option Tsconfig)
    (defaultClientDirective source imp : String) : Option PreResolved :=
  let parsed := parseDcImport source defaultClientDirective
  let pattern := parsed.pattern
  let isPathAlias := !(strStartsWith pattern "./" || strStartsWith pattern "../" ||
    strStartsWith pattern "/")
  if isPathAlias then
    match resolveAlias (getGlobBase pattern) viteAliases ts with
    | none => none
    | some baseDir =>
      if baseDir = "" then none
      else
        some ⟨parsed.clientDirective, pattern, true,
          normalizePath (baseDir ++ (pattern.toList.drop (getGlobBase pattern).length).asString),
          baseDir⟩
  else
    some ⟨parsed.clientDirective, pattern, false,
      normalizePath (pathJoin (dirname imp) pattern),
      pathJoin (dirname imp) (getGlobBase pattern)⟩

/-- `path.resolve(projectRoot, srcDir)`. -/
def srcDirAbsoluteOf (projectRoot srcDir : String) : String := pathResolve2 projectRoot srcDir

/-- The sorted srcDir-relative paths of the matched files (lines 308-310). -/
def relPathsOf (projectRoot srcDir : String) (files : List String) : List String :=
  sortStrings (files.map (fun f =>
    normalizePath (pathRelative (srcDirAbsoluteOf projectRoot srcDir) f)))

/-- The virtual module identity (lines 313-314 and 327): hash the sorted
comma-joined relative paths, then
`path.resolve(projectRoot, srcDir, '_generate_', '_virtual_dc_<hash>.astro')`. -/
def vfpOf (md5f : String → String) (projectRoot srcDir : String) (files : List String) : String :=
  pathResolve4 projectRoot srcDir "_generate_"
    ("_virtual_dc_" ++ md5f (String.intercalate "," (relPathsOf projectRoot srcDir files)) ++
      ".astro")

/-- Observable outcome of one `resolveId` call: the returned id (or `null`),
the `console.warn` messages, the cache afterwards, whether
`generateVirtualAstroComponent` ran, which glob pattern was handed to the
matcher (if any), and whether the alias tier was consulted. -/
structure ResolveResult where
  resolved : Option String
  warnings : List String
  cache : List (String × String)
  synthCalled : Bool
  globUsed : Option String
  aliasConsulted : Bool
deriving DecidableEq

/-- Lines 295-339 of `resolveId`, from the glob match on: fail with a
warning on an empty match, otherwise compute the identity, synthesize and
cache the source text when the identity is not yet cached, and return the
identity. -/
def afterMatch (md5f : String → String) (projectRoot srcDir : String) (p : PreResolved)
    (files : List String) (cache : List (String × String)) : ResolveResult :=
  if files.isEmpty then
    ⟨none, [warnNoMatch p.pattern], cache, false, some p.resolvedPattern, p.isPathAlias⟩
  else if cacheHas cache (vfpOf md5f projectRoot srcDir files) then
    ⟨some (vfpOf md5f projectRoot srcDir files), [], cache, false,
      some p.resolvedPattern, p.isPathAlias⟩
  else
    ⟨some (vfpOf md5f projectRoot srcDir files), [],
      (vfpOf md5f projectRoot srcDir files,
        generateVirtualAstroComponent p.pattern p.baseDir p.clientDirective
          (files.map (mkComponent md5f p.baseDir)) p.isPathAlias
          (srcDirAbsoluteOf projectRoot srcDir)) :: cache,
      true, some p.resolvedPattern, p.isPathAlias⟩

/-- Faithful model of the `resolveId` hook.  `fg` is the external glob
matcher (pattern to absolute file list), `md5f` the external 8-hex digest.
The `if (!importer)` guard is a JS falsy check, so an importer that is the
empty string declines with the same warning as a missing importer. -/
def resolveId (fg : String → List String) (md5f : String → String)
    (viteAliases : List (String × String)) (ts : Option Tsconfig)
    (projectRoot srcDir defaultClientDirective : String)
    (cache : List (String × String)) (source : String) (importer : Option String) :
    ResolveResult :=
  if strStartsWith source "dc:" then
    match importer with
    | none => ⟨none, [warnNoImporter source], cache, false, none, false⟩
    | some imp =>
      if imp = "" then ⟨none, [warnNoImporter source], cache, false, none, false⟩
      else
        match preResolve viteAliases ts defaultClientDirective source imp with
        | none =>
          ⟨none,
            [warnAliasFail (getGlobBase (parseDcImport source defaultClientDirective).pattern)],
            cache, false, none, true⟩
        | some p => afterMatch md5f projectRoot srcDir p (fg p.resolvedPattern) cache
  else ⟨none, [], cache, false, none, false⟩

/-- Faithful model of the `load` hook (lines 346-362): foreign ids pass
through silently; for a `_virtual_dc_*.astro` id the cached text is served,
with a warning and `null` when it is absent (or falsy). -/
def load (cache : List (String × String)) (id : String) : Option String × List String :=
  let fileName := basename id
  if strStartsWith fileName "_virtual_dc_" && strEndsWith fileName ".astro" then
    match cacheGet cache id with
    | some code => if code = "" then (none, [warnCacheMiss id]) else (some code, [])
    | none => (none, [warnCacheMiss id])
  else (none, [])

/-! ## Specification-side definitions (used to state the claims) -/

/-- A glob metacharacter of `getGlobBase`. -/
def isGlobChar (c : Char) : Bool := c == '*' || c == '?' || c == '[' || c == charLbrace

/-- `globBase` as the specification words it: the substring before the
first metacharacter (the whole pattern when none occurs), cut back to just
before its last separator, `.` when that prefix has no separator. -/
def globBaseSpec (pattern : String) : String :=
  let pre := pattern.toList.takeWhile (fun c => !isGlobChar c)
  match lastIdxOf '/' pre with
  | some i => (pre.take i).asString
  | none => "."

/-- Index of the first colon immediately followed by `./`, `../`, `/`, an
ASCII letter, or `@` — the boundary as the specification describes it. -/
def firstBoundaryIdx : List Char → Option Nat
  | [] => none
  | c :: rest =>
    if c == ':' && startsPath rest then some 0 else (firstBoundaryIdx rest).map (· + 1)

/-- The Vite tier exactly as the claim words it (the first ordered entry
whose `find` is a literal prefix wins, with no skipping of empty finds). -/
def viteFirstMatchClaimed (aliasPath : String) : List (String × String) → Option (String × String)
  | [] => none
  | (fnd, repl) :: rest =>
    if strStartsWith aliasPath fnd then some (fnd, repl)
    else viteFirstMatchClaimed aliasPath rest

/-- `resolveAlias` as the claim words it, built on `viteFirstMatchClaimed`. -/
def resolveAliasClaimed (aliasPath : String) (viteAliases : List (String × String))
    (ts : Option Tsconfig) : Option String :=
  match viteFirstMatchClaimed aliasPath viteAliases with
  | some e => some (e.2 ++ (aliasPath.toList.drop e.1.length).asString)
  | none =>
    match ts with
    | none => none
    | some t => tsPathsLookup aliasPath t.baseDirResolved t.paths

/-- The amended two-tier lookup, stated through `List.find?`: first entry
with a non-empty `find` that is a literal prefix; otherwise the first
tsconfig pattern whose stripped key is a prefix and whose first mapping is
non-empty. -/
def resolveAliasSpec (aliasPath : String) (viteAliases : List (String × String))
    (ts : Option Tsconfig) : Option String :=
  match viteAliases.find? (fun e => !(e.1 == "") && strStartsWith aliasPath e.1) with
  | some e => some (e.2 ++ (aliasPath.toList.drop e.1.length).asString)
  | none =>
    match ts with
    | none => none
    | some t =>
      match t.paths.find? (fun pr => strStartsWith aliasPath (stripSlashStar pr.1) &&
          (match pr.2 with | [] => false | m :: _ => !(m == ""))) with
      | some pr =>
        some (pathResolve2 t.baseDirResolved
          (stripSlashStar (pr.2.headD "") ++
            (aliasPath.toList.drop (stripSlashStar pr.1).length).asString))
      | none => none

/-- Number of conditional-render branches whose guard literal is `s`. -/
def guardCount (comps : List Comp) (s : String) : Nat :=
  (comps.filter (fun c => c.compName == s)).length

/-! ## Concrete collaborator instances for witnesses and counterexamples -/

/-- A concrete glob matcher: every pattern matches the single file
`/proj/src/shared/A.jsx`. -/
def fgOne (_pattern : String) : List String := ["/proj/src/shared/A.jsx"]

/-- A concrete glob matcher that never matches. -/
def fgNone (_pattern : String) : List String := []

/-- A concrete stand-in for the md5 digest (any deterministic
`String → String` function; the claims under test do not depend on which). -/
def md5Model (s : String) : String :=
  ((s.toList.take 8).map (fun c => if c = '/' then '_' else c)).asString

/-- Bridge used to reason about the `getGlobBase` fold: one step of the
minimum-of-first-indices computation. -/
def globStep (acc : Nat) (o : Option Nat) : Nat :=
  match o with
  | some i => if i < acc then i else acc
  | none => acc


/-! ## Helper lemmas -/

theorem lexLe_cons (a b : Char) (as bs : List Char) :
    lexLe (a :: as) (b :: bs) =
      if a.toNat = b.toNat then lexLe as bs else Nat.blt a.toNat b.toNat := rfl

theorem lexLe_total : ∀ a b : List Char, lexLe a b = true ∨ lexLe b a = true
  | [], _ => Or.inl rfl
  | _ :: _, [] => Or.inr rfl
  | a :: as, b :: bs => by
    rw [lexLe_cons, lexLe_cons]
    by_cases h : a.toNat = b.toNat
    · rw [if_pos h, if_pos h.symm]
      exact lexLe_total as bs
    · rw [if_neg h, if_neg (fun hh => h hh.symm)]
      simp only [Nat.blt_eq]
      omega

theorem lexLe_trans : ∀ a b c : List Char,
    lexLe a b = true → lexLe b c = true → lexLe a c = true
  | [], _, _ => fun _ _ => rfl
  | _ :: _, [], _ => fun h _ => by exact absurd h (by rw [lexLe]; exact Bool.false_ne_true)
  | _ :: _, _ :: _, [] => fun _ h => by exact absurd h (by rw [lexLe]; exact Bool.false_ne_true)
  | a :: as, b :: bs, c :: cs => fun h₁ h₂ => by
    rw [lexLe_cons] at h₁ h₂ ⊢
    by_cases hab : a.toNat = b.toNat <;> by_cases hbc : b.toNat = c.toNat
    · rw [if_pos hab] at h₁
      rw [if_pos hbc] at h₂
      rw [if_pos (hab.trans hbc)]
      exact lexLe_trans as bs cs h₁ h₂
    · rw [if_pos hab] at h₁
      rw [if_neg hbc] at h₂
      rw [if_neg (show ¬a.toNat = c.toNat from hab ▸ hbc), hab]
      exact h₂
    · rw [if_neg hab] at h₁
      rw [if_neg (show ¬a.toNat = c.toNat from fun h => hab (h.trans hbc.symm)), ← hbc]
      exact h₁
    · rw [if_neg hab] at h₁
      rw [if_neg hbc] at h₂
      simp only [Nat.blt_eq] at h₁ h₂
      have hac : ¬a.toNat = c.toNat := by omega
      rw [if_neg hac]
      simp only [Nat.blt_eq]
      omega

theorem lexLe_antisymm : ∀ a b : List Char, lexLe a b = true → lexLe b a = true → a = b
  | [], [] => fun _ _ => rfl
  | [], _ :: _ => fun _ h => by exact absurd h (by rw [lexLe]; exact Bool.false_ne_true)
  | _ :: _, [] => fun h _ => by exact absurd h (by rw [lexLe]; exact Bool.false_ne_true)
  | a :: as, b :: bs => fun h₁ h₂ => by
    rw [lexLe_cons] at h₁ h₂
    by_cases h : a.toNat = b.toNat
    · rw [if_pos h] at h₁
      rw [if_pos h.symm] at h₂
      have ha : a = b := Char.ext (UInt32.eq_of_val_eq (Fin.ext h))
      rw [ha, lexLe_antisymm as bs h₁ h₂]
    · rw [if_neg h] at h₁
      rw [if_neg (fun hh => h hh.symm)] at h₂
      simp only [Nat.blt_eq] at h₁ h₂
      omega

theorem sortStrings_congr {l₁ l₂ : List String} (h : l₁.Perm l₂) :
    sortStrings l₁ = sortStrings l₂ := by
  haveI : IsTotal String strLe := ⟨fun a b => lexLe_total a.toList b.toList⟩
  haveI : IsTrans String strLe := ⟨fun a b c => lexLe_trans a.toList b.toList c.toList⟩
  haveI : IsAntisymm String strLe := ⟨fun a b h₁ h₂ => by
    have := lexLe_antisymm a.toList b.toList h₁ h₂
    exact String.ext this⟩
  exact List.eq_of_perm_of_sorted
    ((List.perm_insertionSort strLe l₁).trans (h.trans (List.perm_insertionSort strLe l₂).symm))
    (List.sorted_insertionSort strLe l₁) (List.sorted_insertionSort strLe l₂)

theorem vfpOf_congr (md5f : String → String) (projectRoot srcDir : String)
    {files₁ files₂ : List String} (h : files₁.Perm files₂) :
    vfpOf md5f projectRoot srcDir files₁ = vfpOf md5f projectRoot srcDir files₂ := by
  unfold vfpOf relPathsOf
  rw [sortStrings_congr (h.map _)]

theorem afterMatch_resolved (md5f : String → String) (projectRoot srcDir : String)
    (p : PreResolved) (files : List String) (cache : List (String × String))
    (h : files ≠ []) :
    (afterMatch md5f projectRoot srcDir p files cache).resolved =
      some (vfpOf md5f projectRoot srcDir files) := by
  cases files with
  | nil => exact absurd rfl h
  | cons f fs =>
    unfold afterMatch
    simp only [List.isEmpty_cons, Bool.false_eq_true, if_false]
    split <;> rfl

theorem afterMatch_cache_has (md5f : String → String) (projectRoot srcDir : String)
    (p : PreResolved) (files : List String) (cache : List (String × String))
    (h : files ≠ []) :
    cacheHas (afterMatch md5f projectRoot srcDir p files cache).cache
      (vfpOf md5f projectRoot srcDir files) = true := by
  cases files with
  | nil => exact absurd rfl h
  | cons f fs =>
    unfold afterMatch
    simp only [List.isEmpty_cons, Bool.false_eq_true, if_false]
    split
    · assumption
    · simp [cacheHas]

theorem afterMatch_synth_false (md5f : String → String) (projectRoot srcDir : String)
    (p : PreResolved) (files : List String) (cache : List (String × String))
    (h : cacheHas cache (vfpOf md5f projectRoot srcDir files) = true) :
    (afterMatch md5f projectRoot srcDir p files cache).synthCalled = false := by
  unfold afterMatch
  rw [h]
  split
  · rfl
  · rfl

theorem afterMatch_fields (md5f : String → String) (projectRoot srcDir : String)
    (p : PreResolved) (files : List String) (cache : List (String × String)) :
    (afterMatch md5f projectRoot srcDir p files cache).globUsed = some p.resolvedPattern ∧
    (afterMatch md5f projectRoot srcDir p files cache).aliasConsulted = p.isPathAlias := by
  unfold afterMatch
  split
  · exact ⟨rfl, rfl⟩
  · split <;> exact ⟨rfl, rfl⟩

theorem resolveId_eq_afterMatch (fg : String → List String) (md5f : String → String)
    (viteAliases : List (String × String)) (ts : Option Tsconfig)
    (projectRoot srcDir d : String) (cache : List (String × String))
    (source imp : String) (p : PreResolved)
    (h : strStartsWith source "dc:" = true) (h0 : imp ≠ "")
    (hp : preResolve viteAliases ts d source imp = some p) :
    resolveId fg md5f viteAliases ts projectRoot srcDir d cache source (some imp) =
      afterMatch md5f projectRoot srcDir p (fg p.resolvedPattern) cache := by
  unfold resolveId
  rw [if_pos h]
  simp only [if_neg h0, hp]

/-! ## Claims C1 and C2: the virtual identity and the cache -/

/-- Claim C2 (confirmed): two `resolveId` calls — each from a truthy
(non-empty) importer file and past the pre-resolution stage — whose glob
matching yields the same set of matched absolute file paths (in any
listing order) and the same directive return the same virtual identity,
and a later resolution of that identity is a cache hit which does not
invoke the synthesizer again. -/
theorem resolveId_identity_idempotent
    (fg : String → List String) (md5f : String → String)
    (viteAliases : List (String × String)) (ts : Option Tsconfig)
    (projectRoot srcDir d : String) (cache : List (String × String))
    (s₁ s₂ i₁ i₂ : String) (p₁ p₂ : PreResolved)
    (h₁ : strStartsWith s₁ "dc:" = true) (h₂ : strStartsWith s₂ "dc:" = true)
    (h0₁ : i₁ ≠ "") (h0₂ : i₂ ≠ "")
    (hp₁ : preResolve viteAliases ts d s₁ i₁ = some p₁)
    (hp₂ : preResolve viteAliases ts d s₂ i₂ = some p₂)
    (hcd : p₁.clientDirective = p₂.clientDirective)
    (hfg : (fg p₁.resolvedPattern).Perm (fg p₂.resolvedPattern))
    (hne : fg p₁.resolvedPattern ≠ []) :
    (resolveId fg md5f viteAliases ts projectRoot srcDir d cache s₁ (some i₁)).resolved ≠ none ∧
    (resolveId fg md5f viteAliases ts projectRoot srcDir d
        (resolveId fg md5f viteAliases ts projectRoot srcDir d cache s₁ (some i₁)).cache
        s₂ (some i₂)).resolved =
      (resolveId fg md5f viteAliases ts projectRoot srcDir d cache s₁ (some i₁)).resolved ∧
    (resolveId fg md5f viteAliases ts projectRoot srcDir d
        (resolveId fg md5f viteAliases ts projectRoot srcDir d cache s₁ (some i₁)).cache
        s₂ (some i₂)).synthCalled = false := by
  have e₁ := resolveId_eq_afterMatch fg md5f viteAliases ts projectRoot srcDir d cache
    s₁ i₁ p₁ h₁ h0₁ hp₁
  have e₂ := resolveId_eq_afterMatch fg md5f viteAliases ts projectRoot srcDir d
    (resolveId fg md5f viteAliases ts projectRoot srcDir d cache s₁ (some i₁)).cache
    s₂ i₂ p₂ h₂ h0₂ hp₂
  have hne₂ : fg p₂.resolvedPattern ≠ [] := fun hnil =>
    hne (List.Perm.eq_nil (hnil ▸ hfg))
  have hvfp : vfpOf md5f projectRoot srcDir (fg p₂.resolvedPattern) =
      vfpOf md5f projectRoot srcDir (fg p₁.resolvedPattern) :=
    vfpOf_congr md5f projectRoot srcDir hfg.symm
  have hr₁ : (resolveId fg md5f viteAliases ts projectRoot srcDir d cache
      s₁ (some i₁)).resolved = some (vfpOf md5f projectRoot srcDir (fg p₁.resolvedPattern)) := by
    rw [e₁]
    exact afterMatch_resolved md5f projectRoot srcDir p₁ _ cache hne
  refine ⟨by rw [hr₁]; exact fun hh => Option.noConfusion hh, ?_, ?_⟩
  · rw [e₂, afterMatch_resolved md5f projectRoot srcDir p₂ _ _ hne₂, hvfp, hr₁]
  · rw [e₂]
    apply afterMatch_synth_false
    rw [hvfp, e₁]
    exact afterMatch_cache_has md5f projectRoot srcDir p₁ _ cache hne

/-- The `PreResolved` value of `dc:load:./shared/*.jsx` imported from
`/proj/src/pages/a.astro`. -/
def preLoadPages : PreResolved :=
  ⟨some "client:load", "./shared/*.jsx", false, "/proj/src/pages/shared/*.jsx",
    "/proj/src/pages/shared"⟩

/-- The `PreResolved` value of `dc:load:./shared/*.jsx` imported from
`/proj/src/other/b.astro`. -/
def preLoadOther : PreResolved :=
  ⟨some "client:load", "./shared/*.jsx", false, "/proj/src/other/shared/*.jsx",
    "/proj/src/other/shared"⟩

/-- The `PreResolved` value of `dc:idle:./shared/*.jsx` imported from
`/proj/src/other/b.astro`. -/
def preIdleOther : PreResolved :=
  ⟨some "client:idle", "./shared/*.jsx", false, "/proj/src/other/shared/*.jsx",
    "/proj/src/other/shared"⟩

/-- Witness for Claim C2's theorem at a concrete configuration: the same
glob from two importer files with the same directive. -/
theorem resolveId_identity_idempotent_witness :
    (resolveId fgOne md5Model [] none "/proj" "src" "load" [] "dc:load:./shared/*.jsx"
        (some "/proj/src/pages/a.astro")).resolved ≠ none ∧
    (resolveId fgOne md5Model [] none "/proj" "src" "load"
        (resolveId fgOne md5Model [] none "/proj" "src" "load" [] "dc:load:./shared/*.jsx"
          (some "/proj/src/pages/a.astro")).cache
        "dc:load:./shared/*.jsx" (some "/proj/src/other/b.astro")).resolved =
      (resolveId fgOne md5Model [] none "/proj" "src" "load" [] "dc:load:./shared/*.jsx"
        (some "/proj/src/pages/a.astro")).resolved ∧
    (resolveId fgOne md5Model [] none "/proj" "src" "load"
        (resolveId fgOne md5Model [] none "/proj" "src" "load" [] "dc:load:./shared/*.jsx"
          (some "/proj/src/pages/a.astro")).cache
        "dc:load:./shared/*.jsx" (some "/proj/src/other/b.astro")).synthCalled = false :=
  resolveId_identity_idempotent fgOne md5Model [] none "/proj" "src" "load" []
    "dc:load:./shared/*.jsx" "dc:load:./shared/*.jsx"
    "/proj/src/pages/a.astro" "/proj/src/other/b.astro" preLoadPages preLoadOther
    (by decide) (by decide) (by decide) (by decide) (by decide) (by decide) (by decide)
    (by decide) (by decide)

/-- Claim C1 as frozen is false on the code: two resolutions with identical
match sets but different directive segments (`load` vs `idle`, from two
different importer files) return the same — not distinct — virtual
identity, because the hash covers only the sorted file list. -/
theorem directive_distinct_identity_counterexample :
    (parseDcImport "dc:load:./shared/*.jsx" "load").clientDirective ≠
      (parseDcImport "dc:idle:./shared/*.jsx" "load").clientDirective ∧
    (resolveId fgOne md5Model [] none "/proj" "src" "load" [] "dc:load:./shared/*.jsx"
        (some "/proj/src/pages/a.astro")).resolved =
      some "/proj/src/_generate_/_virtual_dc_shared_A.astro" ∧
    (resolveId fgOne md5Model [] none "/proj" "src" "load" [] "dc:idle:./shared/*.jsx"
        (some "/proj/src/other/b.astro")).resolved =
      some "/proj/src/_generate_/_virtual_dc_shared_A.astro" := by decide

/-- Claim C1 (amended): two `resolveId` calls — each from a truthy
(non-empty) importer file and past the pre-resolution stage — whose glob
matching yields identical sorted file sets but whose specifiers carry
different directive segments return the same virtual identity (the
directive does not participate in the identity; the first resolution's
directive wins). -/
theorem same_fileset_same_identity_despite_directives
    (fg : String → List String) (md5f : String → String)
    (viteAliases : List (String × String)) (ts : Option Tsconfig)
    (projectRoot srcDir d : String) (cache₁ cache₂ : List (String × String))
    (s₁ s₂ i₁ i₂ : String) (p₁ p₂ : PreResolved)
    (h₁ : strStartsWith s₁ "dc:" = true) (h₂ : strStartsWith s₂ "dc:" = true)
    (h0₁ : i₁ ≠ "") (h0₂ : i₂ ≠ "")
    (hp₁ : preResolve viteAliases ts d s₁ i₁ = some p₁)
    (hp₂ : preResolve viteAliases ts d s₂ i₂ = some p₂)
    (hdiff : p₁.clientDirective ≠ p₂.clientDirective)
    (hfg : (fg p₁.resolvedPattern).Perm (fg p₂.resolvedPattern))
    (hne : fg p₁.resolvedPattern ≠ []) :
    (resolveId fg md5f viteAliases ts projectRoot srcDir d cache₁ s₁ (some i₁)).resolved =
      (resolveId fg md5f viteAliases ts projectRoot srcDir d cache₂ s₂ (some i₂)).resolved ∧
    (resolveId fg md5f viteAliases ts projectRoot srcDir d cache₁ s₁ (some i₁)).resolved ≠
      none := by
  have e₁ := resolveId_eq_afterMatch fg md5f viteAliases ts projectRoot srcDir d cache₁
    s₁ i₁ p₁ h₁ h0₁ hp₁
  have e₂ := resolveId_eq_afterMatch fg md5f viteAliases ts projectRoot srcDir d cache₂
    s₂ i₂ p₂ h₂ h0₂ hp₂
  have hne₂ : fg p₂.resolvedPattern ≠ [] := fun hnil =>
    hne (List.Perm.eq_nil (hnil ▸ hfg))
  have hvfp : vfpOf md5f projectRoot srcDir (fg p₁.resolvedPattern) =
      vfpOf md5f projectRoot srcDir (fg p₂.resolvedPattern) :=
    vfpOf_congr md5f projectRoot srcDir hfg
  constructor
  · rw [e₁, e₂, afterMatch_resolved md5f projectRoot srcDir p₁ _ cache₁ hne,
      afterMatch_resolved md5f projectRoot srcDir p₂ _ cache₂ hne₂, hvfp]
  · rw [e₁, afterMatch_resolved md5f projectRoot srcDir p₁ _ cache₁ hne]
    exact fun hh => Option.noConfusion hh

/-- Witness for Claim C1's amended theorem at a concrete configuration:
`load` vs `idle` on the same glob match set. -/
theorem same_fileset_same_identity_despite_directives_witness :
    (resolveId fgOne md5Model [] none "/proj" "src" "load" [] "dc:load:./shared/*.jsx"
        (some "/proj/src/pages/a.astro")).resolved =
      (resolveId fgOne md5Model [] none "/proj" "src" "load" [] "dc:idle:./shared/*.jsx"
        (some "/proj/src/other/b.astro")).resolved ∧
    (resolveId fgOne md5Model [] none "/proj" "src" "load" [] "dc:load:./shared/*.jsx"
        (some "/proj/src/pages/a.astro")).resolved ≠ none :=
  same_fileset_same_identity_despite_directives fgOne md5Model [] none "/proj" "src" "load"
    [] [] "dc:load:./shared/*.jsx" "dc:idle:./shared/*.jsx"
    "/proj/src/pages/a.astro" "/proj/src/other/b.astro" preLoadPages preIdleOther
    (by decide) (by decide) (by decide) (by decide) (by decide) (by decide) (by decide)
    (by decide) (by decide)

/-! ## Claim C4: `.astro` components never carry a directive attribute -/

/-- Claim C4 (confirmed): for every component whose file path ends in
`.astro`, the conditional-render branch contains no directive attribute,
whatever the parsed directive is (keyword, key=value, default, or null). -/
theorem astro_branch_no_directive (cd : Option String) (md5f : String → String)
    (baseDir fp : String) (h : strEndsWith fp ".astro" = true) :
    clientAttrOf cd (mkComponent md5f baseDir fp) = "" ∧
    branchText cd (mkComponent md5f baseDir fp) =
      branchText none (mkComponent md5f baseDir fp) := by
  have hA : (mkComponent md5f baseDir fp).isAstro = true := h
  have h1 : clientAttrOf cd (mkComponent md5f baseDir fp) = "" := by
    cases cd with
    | none => rfl
    | some s => simp [clientAttrOf, hA]
  refine ⟨h1, ?_⟩
  unfold branchText
  rw [h1]
  rfl

/-- Witness for Claim C4's theorem: an `.astro` file with an explicit
`client:load` directive still gets no attribute. -/
theorem astro_branch_no_directive_witness :
    clientAttrOf (some "client:load") (mkComponent md5Model "/p/src" "/p/src/Icon.astro") = "" ∧
    branchText (some "client:load") (mkComponent md5Model "/p/src" "/p/src/Icon.astro") =
      branchText none (mkComponent md5Model "/p/src" "/p/src/Icon.astro") :=
  astro_branch_no_directive (some "client:load") md5Model "/p/src" "/p/src/Icon.astro"
    (by decide)

/-! ## Claim C10: absolute glob patterns are joined under the importer -/

/-- Claim C10 (confirmed): a prefixed specifier with a truthy (non-empty)
importer whose parsed pattern begins with `/` is classified as relative
(the alias tier is never consulted) and the glob handed to the matcher is
the pattern joined onto the importer's directory, not the pattern as an
absolute filesystem path. -/
theorem absolute_pattern_joined_to_importer
    (fg : String → List String) (md5f : String → String)
    (viteAliases : List (String × String)) (ts : Option Tsconfig)
    (projectRoot srcDir d : String) (cache : List (String × String))
    (source imp : String)
    (h₁ : strStartsWith source "dc:" = true) (h0 : imp ≠ "")
    (h₂ : strStartsWith (parseDcImport source d).pattern "/" = true) :
    (resolveId fg md5f viteAliases ts projectRoot srcDir d cache source
        (some imp)).aliasConsulted = false ∧
    (resolveId fg md5f viteAliases ts projectRoot srcDir d cache source
        (some imp)).globUsed =
      some (normalizePath (pathJoin (dirname imp) (parseDcImport source d).pattern)) := by
  have hp : preResolve viteAliases ts d source imp =
      some ⟨(parseDcImport source d).clientDirective, (parseDcImport source d).pattern, false,
        normalizePath (pathJoin (dirname imp) (parseDcImport source d).pattern),
        pathJoin (dirname imp) (getGlobBase (parseDcImport source d).pattern)⟩ := by
    unfold preResolve
    simp [h₂]
  have e := resolveId_eq_afterMatch fg md5f viteAliases ts projectRoot srcDir d cache
    source imp _ h₁ h0 hp
  rw [e]
  exact ⟨(afterMatch_fields md5f projectRoot srcDir _ _ cache).2,
    (afterMatch_fields md5f projectRoot srcDir _ _ cache).1⟩

/-- Witness for Claim C10's theorem: `dc:load:/comps/*.jsx` from importer
`/proj/src/pages/index.astro` is matched under `/proj/src/pages`, not at
the filesystem root. -/
theorem absolute_pattern_joined_to_importer_witness :
    (resolveId fgOne md5Model [] none "/proj" "src" "load" [] "dc:load:/comps/*.jsx"
        (some "/proj/src/pages/index.astro")).aliasConsulted = false ∧
    (resolveId fgOne md5Model [] none "/proj" "src" "load" [] "dc:load:/comps/*.jsx"
        (some "/proj/src/pages/index.astro")).globUsed =
      some (normalizePath (pathJoin (dirname "/proj/src/pages/index.astro")
        (parseDcImport "dc:load:/comps/*.jsx" "load").pattern)) ∧
    (resolveId fgOne md5Model [] none "/proj" "src" "load" [] "dc:load:/comps/*.jsx"
        (some "/proj/src/pages/index.astro")).globUsed =
      some "/proj/src/pages/comps/*.jsx" :=
  ⟨(absolute_pattern_joined_to_importer fgOne md5Model [] none "/proj" "src" "load" []
      "dc:load:/comps/*.jsx" "/proj/src/pages/index.astro" (by decide) (by decide)
      (by decide)).1,
    (absolute_pattern_joined_to_importer fgOne md5Model [] none "/proj" "src" "load" []
      "dc:load:/comps/*.jsx" "/proj/src/pages/index.astro" (by decide) (by decide)
      (by decide)).2,
    by decide⟩

/-! ## Claim C9: every failure is non-fatal and scoped to one specifier -/

/-- Claim C9 (confirmed): a specifier without the `dc:` prefix is declined
silently; a prefixed specifier with a falsy importer (missing or the empty
string), with an unresolvable alias (the alias lookup yielding null or the
falsy empty string), or with an empty match set produces exactly one
warning and the not-handled signal instead of throwing; and `load` of an
identity with no cached source text warns and returns nothing. -/
theorem failure_paths_nonfatal :
    (∀ (fg : String → List String) (md5f : String → String)
        (viteAliases : List (String × String)) (ts : Option Tsconfig)
        (projectRoot srcDir d : String) (cache : List (String × String))
        (source : String) (importer : Option String),
      strStartsWith source "dc:" = false →
      (resolveId fg md5f viteAliases ts projectRoot srcDir d cache source importer).resolved =
          none ∧
      (resolveId fg md5f viteAliases ts projectRoot srcDir d cache source importer).warnings =
          []) ∧
    (∀ (fg : String → List String) (md5f : String → String)
        (viteAliases : List (String × String)) (ts : Option Tsconfig)
        (projectRoot srcDir d : String) (cache : List (String × String)) (source : String)
        (importer : Option String),
      strStartsWith source "dc:" = true →
      (importer = none ∨ importer = some "") →
      (resolveId fg md5f viteAliases ts projectRoot srcDir d cache source importer).resolved =
          none ∧
      (resolveId fg md5f viteAliases ts projectRoot srcDir d cache source importer).warnings =
          [warnNoImporter source]) ∧
    (∀ (fg : String → List String) (md5f : String → String)
        (viteAliases : List (String × String)) (ts : Option Tsconfig)
        (projectRoot srcDir d : String) (cache : List (String × String)) (source imp : String),
      strStartsWith source "dc:" = true →
      imp ≠ "" →
      (strStartsWith (parseDcImport source d).pattern "./" ||
        strStartsWith (parseDcImport source d).pattern "../" ||
        strStartsWith (parseDcImport source d).pattern "/") = false →
      (resolveAlias (getGlobBase (parseDcImport source d).pattern) viteAliases ts = none ∨
        resolveAlias (getGlobBase (parseDcImport source d).pattern) viteAliases ts =
          some "") →
      (resolveId fg md5f viteAliases ts projectRoot srcDir d cache source
          (some imp)).resolved = none ∧
      (resolveId fg md5f viteAliases ts projectRoot srcDir d cache source
          (some imp)).warnings =
        [warnAliasFail (getGlobBase (parseDcImport source d).pattern)]) ∧
    (∀ (fg : String → List String) (md5f : String → String)
        (viteAliases : List (String × String)) (ts : Option Tsconfig)
        (projectRoot srcDir d : String) (cache : List (String × String)) (source imp : String)
        (p : PreResolved),
      strStartsWith source "dc:" = true →
      imp ≠ "" →
      preResolve viteAliases ts d source imp = some p →
      fg p.resolvedPattern = [] →
      (resolveId fg md5f viteAliases ts projectRoot srcDir d cache source
          (some imp)).resolved = none ∧
      (resolveId fg md5f viteAliases ts projectRoot srcDir d cache source
          (some imp)).warnings = [warnNoMatch p.pattern]) ∧
    (∀ (cache : List (String × String)) (id : String),
      strStartsWith (basename id) "_virtual_dc_" = true →
      strEndsWith (basename id) ".astro" = true →
      cacheGet cache id = none →
      (load cache id).1 = none ∧ (load cache id).2 = [warnCacheMiss id]) := by
  refine ⟨?_, ?_, ?_, ?_, ?_⟩
  · intro fg md5f viteAliases ts projectRoot srcDir d cache source importer h
    simp [resolveId, h]
  · intro fg md5f viteAliases ts projectRoot srcDir d cache source importer h himp
    rcases himp with h' | h' <;> subst h' <;> simp [resolveId, h]
  · intro fg md5f viteAliases ts projectRoot srcDir d cache source imp h himp hcls hal
    have hp : preResolve viteAliases ts d source imp = none := by
      unfold preResolve
      rcases hal with hal | hal <;> simp [hcls, hal]
    unfold resolveId
    rw [if_pos h]
    simp [if_neg himp, hp]
  · intro fg md5f viteAliases ts projectRoot srcDir d cache source imp p h himp hp hfg
    rw [resolveId_eq_afterMatch fg md5f viteAliases ts projectRoot srcDir d cache
      source imp p h himp hp, hfg]
    exact ⟨rfl, rfl⟩
  · intro cache id h1 h2 hget
    simp [load, h1, h2, hget]

/-- The `PreResolved` value of `dc:./x/*.v` imported from
`/r/src/p/a.astro` (used by the empty-match witness). -/
def preEmptyMatch : PreResolved :=
  ⟨some "client:load", "./x/*.v", false, "/r/src/p/x/*.v", "/r/src/p/x"⟩

/-- Witness for Claim C9's theorem: one concrete instance of each failure
path — foreign specifier; missing importer and empty-string importer;
alias lookup yielding null and yielding the falsy empty string (alias
table `@ -> ""`); empty match set; cache miss on load. -/
theorem failure_paths_nonfatal_witness :
    ((resolveId fgOne md5Model [] none "/r" "src" "load" [] "./x" none).resolved = none ∧
      (resolveId fgOne md5Model [] none "/r" "src" "load" [] "./x" none).warnings = []) ∧
    ((resolveId fgOne md5Model [] none "/r" "src" "load" [] "dc:./x" none).resolved = none ∧
      (resolveId fgOne md5Model [] none "/r" "src" "load" [] "dc:./x" none).warnings =
        [warnNoImporter "dc:./x"]) ∧
    ((resolveId fgOne md5Model [] none "/r" "src" "load" [] "dc:./x" (some "")).resolved =
        none ∧
      (resolveId fgOne md5Model [] none "/r" "src" "load" [] "dc:./x" (some "")).warnings =
        [warnNoImporter "dc:./x"]) ∧
    ((resolveId fgOne md5Model [] none "/r" "src" "load" [] "dc:@c/*.v"
        (some "/r/src/a.astro")).resolved = none ∧
      (resolveId fgOne md5Model [] none "/r" "src" "load" [] "dc:@c/*.v"
        (some "/r/src/a.astro")).warnings =
        [warnAliasFail (getGlobBase (parseDcImport "dc:@c/*.v" "load").pattern)]) ∧
    ((resolveId fgOne md5Model [("@", "")] none "/r" "src" "load" [] "dc:@/*.vue"
        (some "/r/src/a.astro")).resolved = none ∧
      (resolveId fgOne md5Model [("@", "")] none "/r" "src" "load" [] "dc:@/*.vue"
        (some "/r/src/a.astro")).warnings =
        [warnAliasFail (getGlobBase (parseDcImport "dc:@/*.vue" "load").pattern)]) ∧
    ((resolveId fgNone md5Model [] none "/r" "src" "load" [] "dc:./x/*.v"
        (some "/r/src/p/a.astro")).resolved = none ∧
      (resolveId fgNone md5Model [] none "/r" "src" "load" [] "dc:./x/*.v"
        (some "/r/src/p/a.astro")).warnings = [warnNoMatch preEmptyMatch.pattern]) ∧
    ((load [] "/r/src/_generate_/_virtual_dc_abcd.astro").1 = none ∧
      (load [] "/r/src/_generate_/_virtual_dc_abcd.astro").2 =
        [warnCacheMiss "/r/src/_generate_/_virtual_dc_abcd.astro"]) :=
  ⟨failure_paths_nonfatal.1 fgOne md5Model [] none "/r" "src" "load" [] "./x" none (by decide),
    failure_paths_nonfatal.2.1 fgOne md5Model [] none "/r" "src" "load" [] "dc:./x" none
      (by decide) (Or.inl rfl),
    failure_paths_nonfatal.2.1 fgOne md5Model [] none "/r" "src" "load" [] "dc:./x"
      (some "") (by decide) (Or.inr rfl),
    failure_paths_nonfatal.2.2.1 fgOne md5Model [] none "/r" "src" "load" [] "dc:@c/*.v"
      "/r/src/a.astro" (by decide) (by decide) (by decide) (Or.inl (by decide)),
    failure_paths_nonfatal.2.2.1 fgOne md5Model [("@", "")] none "/r" "src" "load" []
      "dc:@/*.vue" "/r/src/a.astro" (by decide) (by decide) (by decide)
      (Or.inr (by decide)),
    failure_paths_nonfatal.2.2.2.1 fgNone md5Model [] none "/r" "src" "load" [] "dc:./x/*.v"
      "/r/src/p/a.astro" preEmptyMatch (by decide) (by decide) (by decide) (by decide),
    failure_paths_nonfatal.2.2.2.2 [] "/r/src/_generate_/_virtual_dc_abcd.astro"
      (by decide) (by decide) (by decide)⟩

/-! ## Claim C3: display names and conditional-render guards -/

theorem guardCount_eq_count (comps : List Comp) (s : String) :
    guardCount comps s = (comps.map (fun c => c.compName)).count s := by
  unfold guardCount
  rw [List.count_eq_countP, List.countP_map, List.countP_eq_length_filter]
  rfl

/-- Claim C3 as frozen is false on the code: two distinct matched files
whose relative paths differ only in the extension produce the same display
name, so that display name matches the guard of two conditional-render
branches, not exactly one. -/
theorem guard_collision_counterexample :
    ["/p/src/sh/Button.vue", "/p/src/sh/Button.jsx"].Nodup ∧
    (mkComponent md5Model "/p/src/sh" "/p/src/sh/Button.vue").compName = "Button" ∧
    (mkComponent md5Model "/p/src/sh" "/p/src/sh/Button.jsx").compName = "Button" ∧
    guardCount (["/p/src/sh/Button.vue", "/p/src/sh/Button.jsx"].map
      (mkComponent md5Model "/p/src/sh")) "Button" = 2 := by decide

/-- Claim C3 (amended): when the matched files' extension-stripped relative
paths (the display names) are pairwise distinct, every display name
matches the guard of exactly one conditional-render branch; distinctness
of the files alone does not suffice, since files differing only in their
extension share a display name. -/
theorem guard_unique_of_distinct_displayNames
    (md5f : String → String) (baseDir : String) (files : List String)
    (hnd : (files.map (fun f => (mkComponent md5f baseDir f).compName)).Nodup)
    (f : String) (hf : f ∈ files) :
    guardCount (files.map (mkComponent md5f baseDir)) (mkComponent md5f baseDir f).compName
      = 1 := by
  rw [guardCount_eq_count, List.map_map]
  exact List.count_eq_one_of_mem (by simpa using hnd) (List.mem_map_of_mem _ hf)

/-- Witness for Claim C3's amended theorem: two files with distinct display
names, each selecting exactly one branch. -/
theorem guard_unique_of_distinct_displayNames_witness :
    guardCount (["/p/src/sh/Button.vue", "/p/src/sh/Card.vue"].map
      (mkComponent md5Model "/p/src/sh"))
      (mkComponent md5Model "/p/src/sh" "/p/src/sh/Button.vue").compName = 1 :=
  guard_unique_of_distinct_displayNames md5Model "/p/src/sh"
    ["/p/src/sh/Button.vue", "/p/src/sh/Card.vue"] (by decide)
    "/p/src/sh/Button.vue" (by decide)

/-! ## Claims C5 and C6: the import-string parser -/

theorem findBoundary_eq (w : List Char) :
    findBoundary w = (firstBoundaryIdx w).map (fun k => (w.take k, w.drop (k + 1))) := by
  induction w with
  | nil => rfl
  | cons c rest ih =>
    unfold findBoundary firstBoundaryIdx
    by_cases h : (c == ':' && startsPath rest) = true
    · rw [if_pos h, if_pos h]
      rfl
    · rw [if_neg h, if_neg h, ih]
      cases hfb : firstBoundaryIdx rest with
      | none => rfl
      | some k => rfl

/-- Claim C5 as frozen is false on the code: in `dc:load:./a\nb` a colon
immediately followed by `./` exists (the spec boundary is at index 4 of
the remainder), yet the returned pattern is the whole remainder, not the
text after that colon, because the regex cannot match across the newline. -/
theorem parse_boundary_newline_counterexample :
    firstBoundaryIdx ("dc:load:./a\nb".toList.drop 3) = some 4 ∧
    (parseDcImport "dc:load:./a\nb" "load").pattern ≠ "./a\nb" ∧
    (parseDcImport "dc:load:./a\nb" "load").pattern = "load:./a\nb" ∧
    (parseDcImport "dc:load:./a\nb" "load").clientDirective = some "client:load" := by
  decide

/-- Claim C5 (amended): when the remainder after the `dc:` prefix contains
no line terminator, the parser splits at the first colon immediately
followed by `./`, `../`, `/`, an ASCII letter, or `@`; the pattern is then
exactly the text after that colon, an empty directive segment yields a
null directive, and a non-empty bare-keyword segment yields
`client:<keyword>`; when no such boundary exists — or the remainder does
contain a line terminator — the entire remainder is the pattern and the
configured default keyword is used. -/
theorem parseDcImport_boundary (source d : String) (k : Nat)
    (hLT : noLT (source.toList.drop 3) = true)
    (hb : firstBoundaryIdx (source.toList.drop 3) = some k) :
    parseDcImport source d =
      (if (source.toList.drop 3).take k = [] then
        (⟨none, ((source.toList.drop 3).drop (k + 1)).asString⟩ : ParsedDc)
      else if ((source.toList.drop 3).take k).contains '=' then
        ⟨some ("client:" ++ (eqName ((source.toList.drop 3).take k)).asString ++ "=\"" ++
          (eqValue ((source.toList.drop 3).take k)).asString ++ "\""),
          ((source.toList.drop 3).drop (k + 1)).asString⟩
      else
        ⟨some ("client:" ++ ((source.toList.drop 3).take k).asString),
          ((source.toList.drop 3).drop (k + 1)).asString⟩) := by
  unfold parseDcImport
  rw [hLT, if_pos rfl, findBoundary_eq, hb]
  rfl

theorem parse_split_spec (source d : String) (h : strStartsWith source "dc:" = true) :
    (∀ k : Nat, noLT (source.toList.drop 3) = true →
      firstBoundaryIdx (source.toList.drop 3) = some k →
      (parseDcImport source d).pattern = ((source.toList.drop 3).drop (k + 1)).asString ∧
      ((source.toList.drop 3).take k = [] →
        (parseDcImport source d).clientDirective = none) ∧
      ((source.toList.drop 3).take k ≠ [] →
        ((source.toList.drop 3).take k).contains '=' = false →
        (parseDcImport source d).clientDirective =
          some ("client:" ++ ((source.toList.drop 3).take k).asString))) ∧
    ((firstBoundaryIdx (source.toList.drop 3) = none ∨
        noLT (source.toList.drop 3) = false) →
      parseDcImport source d = ⟨some ("client:" ++ d), (source.toList.drop 3).asString⟩) := by
  constructor
  · intro k hLT hb
    have hPD := parseDcImport_boundary source d k hLT hb
    refine ⟨?_, ?_, ?_⟩
    · rw [hPD]
      split_ifs <;> rfl
    · intro h0
      rw [hPD, if_pos h0]
    · intro h0 hne
      rw [hPD, if_neg h0]
      simp only [hne, Bool.false_eq_true, if_false]
  · intro hcase
    rcases hcase with hb | hLTf
    · unfold parseDcImport
      cases hn : noLT (source.toList.drop 3) with
      | true =>
        rw [if_pos rfl, findBoundary_eq, hb]
        rfl
      | false =>
        rw [if_neg (by simp)]
    · unfold parseDcImport
      rw [hLTf, if_neg (by simp)]

/-- Witness for Claim C5's amended theorem: a bare-keyword split, an empty
segment, and a boundary-free remainder, all concrete. -/
theorem parse_split_spec_witness :
    (parseDcImport "dc:idle:./x" "load").pattern = "./x" ∧
    (parseDcImport "dc:idle:./x" "load").clientDirective = some "client:idle" ∧
    (parseDcImport "dc::./y" "load").clientDirective = none ∧
    parseDcImport "dc:noboundary" "load" = ⟨some "client:load", "noboundary"⟩ :=
  ⟨((parse_split_spec "dc:idle:./x" "load" (by decide)).1 4 (by decide) (by decide)).1.trans
      (by decide),
    (((parse_split_spec "dc:idle:./x" "load" (by decide)).1 4 (by decide) (by decide)).2.2
      (by decide) (by decide)).trans (by decide),
    ((parse_split_spec "dc::./y" "load" (by decide)).1 0 (by decide) (by decide)).2.1
      (by decide),
    ((parse_split_spec "dc:noboundary" "load" (by decide)).2 (Or.inl (by decide))).trans
      (by decide)⟩

theorem eqName_split : ∀ (pre post : List Char), '=' ∉ pre →
    eqName (pre ++ '=' :: post) = pre
  | [], _, _ => rfl
  | p :: ps, post, hpre => by
    have hp : (p != '=') = true :=
      bne_iff_ne.mpr (fun hh => hpre (by rw [hh]; exact List.mem_cons_self '=' ps))
    rw [List.cons_append]
    unfold eqName
    rw [List.takeWhile_cons, if_pos hp]
    have hrec := eqName_split ps post (fun hm => hpre (List.mem_cons_of_mem p hm))
    unfold eqName at hrec
    rw [hrec]

theorem dropWhile_eq_split : ∀ (pre post : List Char), '=' ∉ pre →
    (pre ++ '=' :: post).dropWhile (fun c => c != '=') = '=' :: post
  | [], _, _ => rfl
  | p :: ps, post, hpre => by
    have hp : (p != '=') = true :=
      bne_iff_ne.mpr (fun hh => hpre (by rw [hh]; exact List.mem_cons_self '=' ps))
    rw [List.cons_append, List.dropWhile_cons, if_pos hp]
    exact dropWhile_eq_split ps post (fun hm => hpre (List.mem_cons_of_mem p hm))

theorem eqValue_split (pre post : List Char) (hpre : '=' ∉ pre) :
    eqValue (pre ++ '=' :: post) = post.takeWhile (fun c => c != '=') := by
  unfold eqValue
  rw [dropWhile_eq_split pre post hpre]
  rfl

theorem contains_eq_of_split (pre post : List Char) :
    ((pre ++ '=' :: post).contains '=') = true := by
  induction pre with
  | nil => rfl
  | cons p ps ih =>
    rw [List.cons_append, List.contains_cons, ih, Bool.or_true]

/-- Claim C6 as frozen is false on the code: for the segment `only=a=b`
the value is not the entire remaining text `a=b`; the JS `split('=')`
destructuring keeps only the part between the first and the second `=`. -/
theorem directive_eq_split_counterexample :
    (parseDcImport "dc:only=a=b:./x.vue" "load").clientDirective =
      some "client:only=\"a\"" ∧
    (parseDcImport "dc:only=a=b:./x.vue" "load").clientDirective ≠
      some "client:only=\"a=b\"" := by decide

/-- Claim C6 (amended): for a directive segment containing `=`, the key is
the text before the first `=` and the value is the text strictly between
the first and the second `=` (text after a second `=` is discarded),
formatted as a quoted key/value attribute. -/
theorem directive_eq_split_spec (source d : String) (k : Nat) (pre post : List Char)
    (h : strStartsWith source "dc:" = true)
    (hLT : noLT (source.toList.drop 3) = true)
    (hb : firstBoundaryIdx (source.toList.drop 3) = some k)
    (hseg : (source.toList.drop 3).take k = pre ++ '=' :: post)
    (hpre : '=' ∉ pre) :
    (parseDcImport source d).clientDirective =
      some ("client:" ++ pre.asString ++ "=\"" ++
        (post.takeWhile (fun c => c != '=')).asString ++ "\"") := by
  have hPD := parseDcImport_boundary source d k hLT hb
  rw [hPD]
  have hne : (source.toList.drop 3).take k ≠ [] := by
    rw [hseg]
    simp
  rw [if_neg hne]
  have hct : ((source.toList.drop 3).take k).contains '=' = true := by
    rw [hseg]
    exact contains_eq_of_split pre post
  rw [if_pos hct, hseg, eqName_split pre post hpre, eqValue_split pre post hpre]

/-- Witness for Claim C6's amended theorem: `dc:only=vue:./x.vue` becomes
the quoted attribute `client:only="vue"`. -/
theorem directive_eq_split_spec_witness :
    (parseDcImport "dc:only=vue:./x.vue" "load").clientDirective =
      some "client:only=\"vue\"" :=
  (directive_eq_split_spec "dc:only=vue:./x.vue" "load" 8 ['o', 'n', 'l', 'y']
    ['v', 'u', 'e'] (by decide) (by decide) (by decide) (by decide) (by decide)).trans
    (by decide)

/-! ## Claim C7: the glob base extractor -/

theorem globStep_some0 (a : Nat) : globStep a (some 0) = 0 := by
  show (if 0 < a then 0 else a) = 0
  split_ifs <;> omega

theorem globStep_zero (o : Option Nat) : globStep 0 o = 0 := by
  unfold globStep
  cases o with
  | none => rfl
  | some i => simp

theorem globStep_succ (a : Nat) (o : Option Nat) :
    globStep (a + 1) (o.map (· + 1)) = globStep a o + 1 := by
  cases o with
  | none => rfl
  | some i =>
    show (if i + 1 < a + 1 then i + 1 else a + 1) = (if i < a then i else a) + 1
    split_ifs <;> omega

theorem jsIndexOf_cons_self (ch : Char) (cs : List Char) :
    jsIndexOf ch (ch :: cs) = some 0 := by
  unfold jsIndexOf
  rw [if_pos rfl]

theorem jsIndexOf_cons_ne (ch c : Char) (cs : List Char) (h : c ≠ ch) :
    jsIndexOf ch (c :: cs) = (jsIndexOf ch cs).map (· + 1) := by
  rw [show jsIndexOf ch (c :: cs) = if c = ch then some 0 else (jsIndexOf ch cs).map (· + 1)
    from rfl, if_neg h]

theorem globFold_eq (cs : List Char) :
    globChars.foldl (fun acc ch =>
      match jsIndexOf ch cs with
      | some i => if i < acc then i else acc
      | none => acc) cs.length =
    (cs.takeWhile (fun c => !isGlobChar c)).length := by
  have hfold : ∀ (l : List Char),
      globChars.foldl (fun acc ch =>
        match jsIndexOf ch l with
        | some i => if i < acc then i else acc
        | none => acc) l.length =
      globStep (globStep (globStep (globStep l.length (jsIndexOf '*' l))
        (jsIndexOf '?' l)) (jsIndexOf '[' l)) (jsIndexOf charLbrace l) := fun l => rfl
  rw [hfold]
  induction cs with
  | nil => rfl
  | cons c cs ih =>
    by_cases hg : isGlobChar c = true
    · have hTW : ((c :: cs).takeWhile (fun c => !isGlobChar c)).length = 0 := by
        rw [List.takeWhile_cons, hg]
        rfl
      rw [hTW]
      have hcase : ((c = '*' ∨ c = '?') ∨ c = '[') ∨ c = charLbrace := by
        simpa [isGlobChar] using hg
      rcases hcase with ((hc | hc) | hc) | hc <;> subst hc
      · rw [jsIndexOf_cons_self, globStep_some0, globStep_zero, globStep_zero, globStep_zero]
      · rw [jsIndexOf_cons_self '?', globStep_some0, globStep_zero, globStep_zero]
      · rw [jsIndexOf_cons_self '[', globStep_some0, globStep_zero]
      · rw [jsIndexOf_cons_self charLbrace, globStep_some0]
    · have hc : c ≠ '*' ∧ c ≠ '?' ∧ c ≠ '[' ∧ c ≠ charLbrace := by
        constructor
        · intro hh; rw [hh] at hg; exact hg (by decide)
        constructor
        · intro hh; rw [hh] at hg; exact hg (by decide)
        constructor
        · intro hh; rw [hh] at hg; exact hg (by decide)
        · intro hh; rw [hh] at hg; exact hg (by decide)
      rw [List.length_cons,
        jsIndexOf_cons_ne '*' c cs hc.1,
        jsIndexOf_cons_ne '?' c cs hc.2.1,
        jsIndexOf_cons_ne '[' c cs hc.2.2.1,
        jsIndexOf_cons_ne charLbrace c cs hc.2.2.2,
        globStep_succ, globStep_succ, globStep_succ, globStep_succ, ih,
        List.takeWhile_cons]
      have hg2 : isGlobChar c = false := by
        cases hgc : isGlobChar c with
        | false => rfl
        | true => exact absurd hgc hg
      rw [hg2]
      simp

/-- Claim C7 (confirmed): `getGlobBase` returns everything before the last
path separator of the literal prefix preceding the first glob
metacharacter (`*`, `?`, `[`, `{`), `.` when that prefix has no separator;
in particular `getGlobBase "./a/b/*.vue" = "./a/b"` and
`getGlobBase "*.vue" = "."`. -/
theorem getGlobBase_spec :
    (∀ pattern, getGlobBase pattern = globBaseSpec pattern) ∧
    getGlobBase "./a/b/*.vue" = "./a/b" ∧ getGlobBase "*.vue" = "." := by
  refine ⟨?_, by decide, by decide⟩
  intro pattern
  unfold getGlobBase globBaseSpec
  simp only [globFold_eq]
  rw [← List.prefix_iff_eq_take.mp (List.takeWhile_prefix _)]

/-! ## Claim C8: the two-tier alias lookup -/

theorem viteFirstMatch_eq_find (aliasPath : String) : ∀ (l : List (String × String)),
    viteFirstMatch aliasPath l =
      l.find? (fun e => !(e.1 == "") && strStartsWith aliasPath e.1)
  | [] => rfl
  | (fnd, repl) :: rest => by
    by_cases h0 : fnd = ""
    · subst h0
      unfold viteFirstMatch
      rw [if_pos rfl, List.find?_cons_of_neg rest (by simp), viteFirstMatch_eq_find aliasPath rest]
    · by_cases hsw : strStartsWith aliasPath fnd = true
      · unfold viteFirstMatch
        rw [if_neg h0, if_pos hsw, List.find?_cons_of_pos rest (by simp [h0, hsw])]
      · unfold viteFirstMatch
        rw [if_neg h0, if_neg hsw,
          List.find?_cons_of_neg rest (by simp [hsw]), viteFirstMatch_eq_find aliasPath rest]

theorem tsPathsLookup_eq_find (aliasPath base : String) : ∀ (l : List (String × List String)),
    tsPathsLookup aliasPath base l =
      (match l.find? (fun pr => strStartsWith aliasPath (stripSlashStar pr.1) &&
          (match pr.2 with | [] => false | m :: _ => !(m == ""))) with
      | some pr =>
        some (pathResolve2 base (stripSlashStar (pr.2.headD "") ++
          (aliasPath.toList.drop (stripSlashStar pr.1).length).asString))
      | none => none)
  | [] => rfl
  | (pat, mappings) :: rest => by
    by_cases hsw : strStartsWith aliasPath (stripSlashStar pat) = true
    · cases mappings with
      | nil =>
        unfold tsPathsLookup
        rw [if_pos hsw, List.find?_cons_of_neg rest (by simp), tsPathsLookup_eq_find aliasPath base rest]
      | cons m ms =>
        by_cases hm : m = ""
        · subst hm
          unfold tsPathsLookup
          rw [if_pos hsw]
          dsimp only
          rw [if_pos rfl, List.find?_cons_of_neg rest (by simp),
            tsPathsLookup_eq_find aliasPath base rest]
        · unfold tsPathsLookup
          rw [if_pos hsw]
          dsimp only
          rw [if_neg hm, List.find?_cons_of_pos rest (by simp [hsw, hm])]
          rfl
    · unfold tsPathsLookup
      rw [if_neg hsw, List.find?_cons_of_neg rest (by simp [hsw]),
        tsPathsLookup_eq_find aliasPath base rest]

/-- Claim C8 as frozen is false on the code: an alias entry whose `find` is
the empty string is a literal prefix of every input, so under the claimed
lookup it wins, but the code skips falsy finds and returns `null` when no
other entry or tsconfig mapping matches. -/
theorem resolveAlias_empty_find_counterexample :
    strStartsWith "a/x" "" = true ∧
    resolveAliasClaimed "a/x" [("", "XX")] none = some "XXa/x" ∧
    resolveAlias "a/x" [("", "XX")] none = none := by decide

/-- Claim C8 (amended): `resolveAlias` is the two-tier lookup with the
build-tool table consulted first — the first ordered entry with a
non-empty `find` that is a literal prefix of the input wins, its
replacement substituting the matched prefix; only when no such entry
matches is the path-mapping file consulted (`/*`-stripped patterns, first
non-empty replacement target only, result resolved against the mapping
base directory); `null` exactly when neither tier matches. -/
theorem resolveAlias_two_tier_spec (aliasPath : String)
    (viteAliases : List (String × String)) (ts : Option Tsconfig) :
    resolveAlias aliasPath viteAliases ts = resolveAliasSpec aliasPath viteAliases ts := by
  unfold resolveAlias resolveAliasSpec
  rw [viteFirstMatch_eq_find]
  cases List.find? (fun e => !(e.1 == "") && strStartsWith aliasPath e.1) viteAliases with
  | some e => rfl
  | none =>
    cases ts with
    | none => rfl
    | some t =>
      dsimp only
      rw [tsPathsLookup_eq_find]
